import Mathlib

/-!
Verification development for the CCAI-Automation repository.

The Python sources are shallowly embedded below.  Python strings are
modelled as Lean `String`s; where string algorithms matter, the
corresponding Python operations (`str.split`, `str.join`, `str.replace`,
`str.strip`, `str.startswith`, `in`, slicing, `str.capitalize`,
`str.lower`) are given executable models operating on the underlying
character lists.  `dict` values that may be absent are modelled as
`Option`; CSV rows read through `row.get(key, "")` are modelled with plain
`String` fields because an absent column and an empty value are
indistinguishable after that call.  External effects (HTTP transport, the
browser DOM, the Bedrock endpoint, the RNG, the file system) are passed in
as explicit oracle arguments; a Python function that catches all
exceptions and returns a value is modelled as a total function over those
oracles.
-/

/-! ## Python string primitives (character-list level) -/

/-- Model of Python `str.split(sep)` for a single-character separator:
`"".split(c)` is `[""]`, and separators produce empty segments. -/
def splitChL (c : Char) : List Char → List (List Char)
  | [] => [[]]
  | x :: xs =>
    match splitChL c xs with
    | [] => [[]]
    | h :: t => if x = c then [] :: h :: t else (x :: h) :: t

/-- Model of Python `sep.join(parts)` at the character-list level. -/
def pyJoinL (sep : List Char) : List (List Char) → List Char
  | [] => []
  | [x] => x
  | x :: y :: t => x ++ sep ++ pyJoinL sep (y :: t)

/-- First occurrence of `pat` in `l`: returns the part before the match and
the part after it, scanning left to right (Python `str.find` semantics). -/
def splitFirstL (pat : List Char) : List Char → Option (List Char × List Char)
  | [] => none
  | c :: cs =>
    if pat.isPrefixOf (c :: cs) then some ([], (c :: cs).drop pat.length)
    else
      match splitFirstL pat cs with
      | some (a, b) => some (c :: a, b)
      | none => none

theorem splitFirstL_length_lt (p : Char) (ps : List Char) :
    ∀ (l a b : List Char), splitFirstL (p :: ps) l = some (a, b) → b.length < l.length := by
  intro l
  induction l with
  | nil => intro a b h; simp [splitFirstL] at h
  | cons c cs ih =>
    intro a b h
    simp only [splitFirstL] at h
    split at h
    · simp only [Option.some.injEq, Prod.mk.injEq] at h
      obtain ⟨rfl, rfl⟩ := h
      simp only [List.length_drop, List.length_cons]
      omega
    · cases hrec : splitFirstL (p :: ps) cs with
      | none => rw [hrec] at h; exact absurd h (by simp)
      | some ab =>
        rw [hrec] at h
        obtain ⟨a', b'⟩ := ab
        simp only [Option.some.injEq, Prod.mk.injEq] at h
        obtain ⟨h1, h2⟩ := h
        subst h2
        have := ih a' b' hrec
        simp only [List.length_cons]
        omega

/-- Fuel-driven worker for the multi-character split; the fuel only bounds
the number of cut points, which is at most the input length. -/
def splitSeqGo (p : Char) (ps : List Char) : Nat → List Char → List (List Char)
  | 0, l => [l]
  | fuel + 1, l =>
    match splitFirstL (p :: ps) l with
    | none => [l]
    | some (a, b) => a :: splitSeqGo p ps fuel b

/-- Model of Python `str.split(sep)` for a non-empty multi-character
separator, splitting at every non-overlapping occurrence left to right. -/
def splitSeqL (p : Char) (ps : List Char) (l : List Char) : List (List Char) :=
  splitSeqGo p ps l.length l

theorem splitSeqGo_fuel (p : Char) (ps : List Char) :
    ∀ (f1 : Nat), ∀ (f2 : Nat) (l : List Char), l.length ≤ f1 → l.length ≤ f2 →
      splitSeqGo p ps f1 l = splitSeqGo p ps f2 l := by
  intro f1
  induction f1 with
  | zero =>
    intro f2 l h1 h2
    have : l = [] := List.length_eq_zero.mp (Nat.le_zero.mp h1)
    subst this
    cases f2 with
    | zero => rfl
    | succ f2 => simp [splitSeqGo, splitFirstL]
  | succ f1 ih =>
    intro f2 l h1 h2
    cases f2 with
    | zero =>
      have : l = [] := List.length_eq_zero.mp (Nat.le_zero.mp h2)
      subst this
      simp [splitSeqGo, splitFirstL]
    | succ f2 =>
      simp only [splitSeqGo]
      cases hf : splitFirstL (p :: ps) l with
      | none => rfl
      | some ab =>
        obtain ⟨a, b⟩ := ab
        have hlt := splitFirstL_length_lt p ps l a b hf
        show a :: splitSeqGo p ps f1 b = a :: splitSeqGo p ps f2 b
        rw [ih f2 b (by omega) (by omega)]

/-- Occurrence test: model of Python `pat in s` at character-list level
(`"" in s` is true, as in Python). -/
def containsSeq (pat : List Char) : List Char → Bool
  | [] => pat.isEmpty
  | l@(_ :: xs) => pat.isPrefixOf l || containsSeq pat xs

/-! ## Python string primitives (String wrappers) -/

/-- Lines of a string: Python `s.split('\n')`. -/
def pyLinesOf (s : String) : List String :=
  (splitChL '\n' s.data).map String.mk

/-- Python `sep.join(parts)`. -/
def pyJoinS (sep : String) (parts : List String) : String :=
  ⟨pyJoinL sep.data (parts.map String.data)⟩

/-- Python `s.strip()`: drop leading and trailing whitespace. -/
def pyStrip (s : String) : String :=
  ⟨((s.data.dropWhile Char.isWhitespace).reverse.dropWhile Char.isWhitespace).reverse⟩

/-- Python `s.startswith(p)`. -/
def pyStarts (p s : String) : Bool :=
  p.data.isPrefixOf s.data

/-- Python `pat in s`. -/
def sContainsB (pat s : String) : Bool :=
  containsSeq pat.data s.data

/-- Python `s.replace(old, new)`; Python guarantees
`s.replace(old, new) == new.join(s.split(old))` for non-empty `old`, which
is taken as the model.  `old = ""` does not occur in this codebase. -/
def pyReplace (old new s : String) : String :=
  match old.data with
  | [] => s
  | p :: ps => ⟨pyJoinL new.data (splitSeqL p ps s.data)⟩

/-- Python slicing `s[:n]`. -/
def pyTake (n : Nat) (s : String) : String :=
  ⟨s.data.take n⟩

/-- Python `s.lower()` (ASCII behaviour, which covers every string in this
codebase). -/
def pyLower (s : String) : String :=
  ⟨s.data.map Char.toLower⟩

/-- Python `s.capitalize()`: first character upper-cased, the rest
lower-cased. -/
def pyCapitalize (s : String) : String :=
  match s.data with
  | [] => ""
  | c :: cs => ⟨c.toUpper :: cs.map Char.toLower⟩

/-- Python `s.rstrip('/')`. -/
def pyRstripSlash (s : String) : String :=
  ⟨(s.data.reverse.dropWhile (· = '/')).reverse⟩

/-- Python truthiness of an optional string (`None` and `""` are falsy). -/
def truthyOpt : Option String → Bool
  | none => false
  | some s => s ≠ ""

/-- The string contains no newline character. -/
def noNL (s : String) : Prop := '\n' ∉ s.data

instance (s : String) : Decidable (noNL s) := by
  unfold noNL; infer_instance

/-- An apostrophe character, spliced into string literals where the Python
sources contain one. -/
def apos : String := ⟨[Char.ofNat 39]⟩

/-! ## Basic lemmas about the primitives -/

theorem isPrefixOf_append_self (p t : List Char) : p.isPrefixOf (p ++ t) = true := by
  induction p with
  | nil => simp [List.isPrefixOf]
  | cons c cs ih => simp [List.isPrefixOf, ih]

theorem isPrefixOf_append_of_isPrefixOf {p s : List Char} (t : List Char)
    (h : p.isPrefixOf s = true) : p.isPrefixOf (s ++ t) = true := by
  induction p generalizing s with
  | nil => simp [List.isPrefixOf]
  | cons c cs ih =>
    cases s with
    | nil => simp [List.isPrefixOf] at h
    | cons b bs =>
      simp only [List.isPrefixOf, Bool.and_eq_true] at h ⊢
      exact ⟨h.1, ih h.2⟩

theorem isPrefixOf_append_stop {p a : List Char} (b : List Char)
    (hlen : p.length ≤ a.length) : p.isPrefixOf (a ++ b) = p.isPrefixOf a := by
  induction p generalizing a with
  | nil => simp [List.isPrefixOf]
  | cons c cs ih =>
    cases a with
    | nil => simp at hlen
    | cons x xs =>
      show (c == x && cs.isPrefixOf (xs ++ b)) = (c == x && cs.isPrefixOf xs)
      rw [ih (by simpa using hlen)]

theorem containsSeq_append_left {p a : List Char} (b : List Char)
    (h : containsSeq p a = true) : containsSeq p (a ++ b) = true := by
  induction a with
  | nil =>
    simp only [containsSeq, List.isEmpty_iff] at h
    subst h
    cases b <;> simp [containsSeq, List.isPrefixOf]
  | cons x xs ih =>
    simp only [containsSeq, Bool.or_eq_true] at h ⊢
    rcases h with h | h
    · exact Or.inl (isPrefixOf_append_of_isPrefixOf b h)
    · exact Or.inr (ih h)

theorem containsSeq_append_right {p b : List Char} (a : List Char)
    (h : containsSeq p b = true) : containsSeq p (a ++ b) = true := by
  induction a with
  | nil => simpa using h
  | cons x xs ih =>
    simp only [List.cons_append, containsSeq, Bool.or_eq_true]
    exact Or.inr ih

theorem splitChL_ne_nil (c : Char) (l : List Char) : splitChL c l ≠ [] := by
  cases l with
  | nil => simp [splitChL]
  | cons x xs =>
    simp only [splitChL]
    split
    · simp
    · split <;> simp

theorem splitChL_cons_sep (c : Char) (ys : List Char) :
    splitChL c (c :: ys) = [] :: splitChL c ys := by
  simp only [splitChL]
  split
  · next heq => exact absurd heq (splitChL_ne_nil c ys)
  · next h' t' heq => simp [heq]

theorem splitChL_cons_no_sep (c x : Char) (xs : List Char) (hx : x ≠ c) :
    ∀ hd tl, splitChL c xs = hd :: tl → splitChL c (x :: xs) = (x :: hd) :: tl := by
  intro hd tl h
  simp only [splitChL]
  split
  · next heq => exact absurd heq (splitChL_ne_nil c xs)
  · next h' t' heq =>
    rw [heq] at h
    obtain ⟨rfl, rfl⟩ : h' = hd ∧ t' = tl := by cases h; exact ⟨rfl, rfl⟩
    rw [if_neg hx]

theorem splitChL_append_no_sep (c : Char) (xs ys : List Char)
    (hxs : ∀ x ∈ xs, x ≠ c) :
    ∃ hd tl, splitChL c ys = hd :: tl ∧ splitChL c (xs ++ ys) = (xs ++ hd) :: tl := by
  induction xs with
  | nil =>
    rcases h : splitChL c ys with _ | ⟨h', t'⟩
    · exact absurd h (splitChL_ne_nil c ys)
    · exact ⟨h', t', rfl, by simp [h]⟩
  | cons x xs ih =>
    obtain ⟨hd, tl, h1, h2⟩ := ih (fun a ha => hxs a (List.mem_cons_of_mem x ha))
    refine ⟨hd, tl, h1, ?_⟩
    rw [List.cons_append]
    exact splitChL_cons_no_sep c x (xs ++ ys) (hxs x (List.mem_cons_self x xs)) _ _ h2

theorem splitChL_no_sep (c : Char) (xs : List Char) (hxs : ∀ x ∈ xs, x ≠ c) :
    splitChL c xs = [xs] := by
  obtain ⟨hd, tl, h1, h2⟩ := splitChL_append_no_sep c xs [] hxs
  simp only [splitChL] at h1
  obtain ⟨rfl, rfl⟩ : hd = [] ∧ tl = [] := by
    cases h1; exact ⟨rfl, rfl⟩
  simpa using h2

theorem pyJoinL_splitChL (c : Char) (l : List Char) :
    pyJoinL [c] (splitChL c l) = l := by
  induction l with
  | nil => simp [splitChL, pyJoinL]
  | cons x xs ih =>
    rcases h : splitChL c xs with _ | ⟨hd, tl⟩
    · exact absurd h (splitChL_ne_nil c xs)
    · rw [h] at ih
      by_cases hx : x = c
      · subst hx
        rw [splitChL_cons_sep, h]
        simp only [pyJoinL]
        cases tl <;> simp_all [pyJoinL]
      · rw [splitChL_cons_no_sep c x xs hx hd tl h]
        cases tl with
        | nil => simp_all [pyJoinL]
        | cons y ys =>
          simp only [pyJoinL] at ih ⊢
          rw [← ih]
          simp

theorem splitFirstL_none_of_not_contains {pat l : List Char}
    (h : containsSeq pat l = false) : splitFirstL pat l = none := by
  induction l with
  | nil => simp [splitFirstL]
  | cons c cs ih =>
    simp only [containsSeq, Bool.or_eq_false_iff] at h
    simp only [splitFirstL]
    rw [ih h.2]
    simp [h.1]

theorem splitFirstL_marker (p : Char) (ps rest : List Char) :
    splitFirstL (p :: ps) ((p :: ps) ++ rest) = some ([], rest) := by
  have h1 : (p :: ps) ++ rest = p :: (ps ++ rest) := List.cons_append ..
  rw [h1]
  simp only [splitFirstL, ← h1, isPrefixOf_append_self, if_pos, List.drop_left]

theorem splitSeqGo_no_occurrence (p : Char) (ps l : List Char) (fuel : Nat)
    (h : containsSeq (p :: ps) l = false) : splitSeqGo p ps fuel l = [l] := by
  cases fuel with
  | zero => rfl
  | succ fuel =>
    simp only [splitSeqGo]
    rw [splitFirstL_none_of_not_contains h]

theorem splitSeqL_no_occurrence (p : Char) (ps l : List Char)
    (h : containsSeq (p :: ps) l = false) : splitSeqL p ps l = [l] :=
  splitSeqGo_no_occurrence p ps l l.length h

theorem splitSeqL_marker (p : Char) (ps rest : List Char) :
    splitSeqL p ps ((p :: ps) ++ rest) = [] :: splitSeqL p ps rest := by
  unfold splitSeqL
  have hlen : ((p :: ps) ++ rest).length = (ps.length + rest.length) + 1 := by
    simp only [List.length_append, List.length_cons]
    omega
  rw [hlen]
  simp only [splitSeqGo]
  rw [splitFirstL_marker]
  show [] :: splitSeqGo p ps (ps.length + rest.length) rest = [] :: splitSeqGo p ps rest.length rest
  rw [splitSeqGo_fuel p ps (ps.length + rest.length) rest.length rest (by omega) (by omega)]

theorem pyReplace_marker_of_not_contains (mark subj : String)
    (hm : mark.data ≠ []) (h : sContainsB mark subj = false) :
    pyReplace mark "" (mark ++ subj) = subj := by
  obtain ⟨md⟩ := mark
  cases md with
  | nil => exact absurd rfl hm
  | cons p ps =>
    have hdata : ((⟨p :: ps⟩ : String) ++ subj).data = (p :: ps) ++ subj.data :=
      String.data_append ..
    show (⟨pyJoinL "".data (splitSeqL p ps ((⟨p :: ps⟩ : String) ++ subj).data)⟩ : String) = subj
    rw [hdata, splitSeqL_marker, splitSeqL_no_occurrence p ps subj.data
      (by unfold sContainsB at h; exact h)]
    show (⟨pyJoinL [] [[], subj.data]⟩ : String) = subj
    simp [pyJoinL]

theorem length_dropWhile_le' (p : Char → Bool) (l : List Char) :
    (l.dropWhile p).length ≤ l.length := by
  induction l with
  | nil => simp
  | cons x xs ih =>
    rw [List.dropWhile_cons]
    split
    · exact Nat.le_succ_of_le ih
    · simp

/-! ## Delivery Client (C1, C10)

`CCAPIClient` appears in three near-identical copies
(`linkedin_mcp_server/ccai_integration.py`, `send_single_email.py`,
`send_test_emails.py`, and the send-only gmail script); `ai_website_outbound.py`
has a distinct function `send_email_via_ccai`.  The HTTP transport is an
oracle: an attempt either yields a status and a response body, or raises a
transport exception. -/

/-- Outcome of one HTTP POST attempt, as seen by the calling code. -/
inductive HTTPOutcome where
  | ok (status : Nat) (body : String)
  | exn (msg : String)
deriving DecidableEq

/-- Result dict returned by `CCAPIClient.send_email` /
`send_single_email` / `send_ai_email` / `send_test_email`.  The
`scheduled_time` string present in one variant is elided: it depends only on
the wall clock, an external.  `response` is the parsed JSON body. -/
structure DeliveryResult where
  success : Bool
  status_code : Option Nat
  response : Option String
  error : Option String
deriving DecidableEq

/-- `CCAPIClient.send_email` (ccai_integration.py lines 29-87) and the
identical success/error mapping in `send_single_email.py` lines 36-81,
`send_test_emails.py`, and the gmail send script: the whole body is wrapped
in `try/except`, so every outcome maps to a returned dict and nothing
propagates to the caller. -/
def send_email_result (o : HTTPOutcome) : DeliveryResult :=
  match o with
  | .ok status body =>
    { success := status = 200 || status = 201
      status_code := some status
      response := some body
      error := none }
  | .exn e =>
    { success := false, status_code := none, response := none, error := some e }

/-- Environment variables consulted by the scripts (`None` = unset). -/
structure EnvCfg where
  ccaiApiKey : Option String
  ccaiClientId : Option String
  ccaiEmailUrl : Option String
deriving DecidableEq

/-- `send_email_via_ccai` (ai_website_outbound.py lines 433-478): returns a
bare boolean, `False` without attempting a request when any of the three
credentials is falsy, `True` only when the response status is exactly 200,
and `False` on any other status or exception. -/
def send_email_via_ccai (env : EnvCfg) (o : HTTPOutcome) : Bool :=
  if !(truthyOpt env.ccaiApiKey && truthyOpt env.ccaiClientId && truthyOpt env.ccaiEmailUrl) then
    false
  else
    match o with
    | .ok status _ => status = 200
    | .exn _ => false

/-- Client state built by the script-level `CCAPIClient.__init__`
(send_single_email.py lines 20-34 and its copies): `email_url` is read from
the environment without validation and may be `None`. -/
structure ClientState where
  api_key : String
  client_id : String
  email_url : Option String
deriving DecidableEq

/-- `CCAPIClient.__init__` (send_single_email.py lines 20-34, identical in
send_test_emails.py and the gmail send script): reads the three variables
and raises `ValueError` when `api_key` or `client_id` is falsy (unset or
empty); `CCAI_EMAIL_URL` is stored unchecked. -/
def ccapiInit (env : EnvCfg) : Except String ClientState :=
  if !truthyOpt env.ccaiApiKey || !truthyOpt env.ccaiClientId then
    .error "CCAI_API_KEY and CCAI_CLIENT_ID must be set in .env file"
  else
    .ok { api_key := (env.ccaiApiKey).getD ""
          client_id := (env.ccaiClientId).getD ""
          email_url := env.ccaiEmailUrl }

/-- Whether construction succeeded. -/
def ccapiInitOk (env : EnvCfg) : Bool :=
  match ccapiInit env with
  | .ok _ => true
  | .error _ => false

/-- The HTTP outcome carries a 200 or 201 status. -/
def statusOk20x (o : HTTPOutcome) : Prop :=
  ∃ s b, o = .ok s b ∧ (s = 200 ∨ s = 201)

instance (o : HTTPOutcome) : Decidable (statusOk20x o) := by
  unfold statusOk20x
  cases o with
  | ok s b =>
    by_cases h : s = 200 ∨ s = 201
    · exact .isTrue ⟨s, b, rfl, h⟩
    · exact .isFalse (by rintro ⟨s', b', heq, h'⟩; cases heq; exact h h')
  | exn e => exact .isFalse (by rintro ⟨s', b', heq, h'⟩; cases heq)

/-- C1 counterexample: `send_email_via_ccai` (ai_website_outbound.py), one of
the delivery functions the claim quantifies over, reports failure on HTTP
status 201 even with all credentials present, contradicting "success=true
exactly when the HTTP response status is 200 or 201". -/
theorem c1_counterexample :
    send_email_via_ccai ⟨some "k", some "c", some "https://u"⟩ (.ok 201 "created") = false ∧
    statusOk20x (.ok 201 "created") := by
  constructor
  · decide
  · exact ⟨201, "created", rfl, Or.inr rfl⟩

/-- C1 amended: the `CCAPIClient.send_*` variants return a result dict with
success exactly on status 200/201 and capture transport exceptions in the
result (never raising), while the website-outbound sender returns a bare
boolean that is true exactly when all three credentials are truthy and the
status is exactly 200 (201 also yields false there). -/
theorem c1_amended :
    (∀ o : HTTPOutcome, (send_email_result o).success = true ↔ statusOk20x o) ∧
    (∀ e : String, send_email_result (.exn e) =
      { success := false, status_code := none, response := none, error := some e }) ∧
    (∀ s b, send_email_result (.ok s b) =
      { success := s = 200 || s = 201, status_code := some s, response := some b, error := none }) ∧
    (∀ (env : EnvCfg) (o : HTTPOutcome), send_email_via_ccai env o = true ↔
      (truthyOpt env.ccaiApiKey ∧ truthyOpt env.ccaiClientId ∧ truthyOpt env.ccaiEmailUrl ∧
        ∃ b, o = .ok 200 b)) := by
  refine ⟨?_, fun e => rfl, fun s b => rfl, ?_⟩
  · intro o
    cases o with
    | ok s b =>
      simp only [send_email_result, statusOk20x, Bool.or_eq_true, decide_eq_true_eq]
      constructor
      · intro h; exact ⟨s, b, rfl, h⟩
      · rintro ⟨s', b', heq, h⟩; cases heq; exact h
    | exn e =>
      simp only [send_email_result, statusOk20x]
      constructor
      · intro h; cases h
      · rintro ⟨s', b', heq, h⟩; cases heq
  · intro env o
    unfold send_email_via_ccai
    cases hc : truthyOpt env.ccaiApiKey && truthyOpt env.ccaiClientId && truthyOpt env.ccaiEmailUrl with
    | true =>
      rw [if_neg (by simp [hc])]
      simp only [Bool.and_eq_true] at hc
      cases o with
      | ok s b =>
        simp only [decide_eq_true_eq]
        constructor
        · intro h; exact ⟨hc.1.1, hc.1.2, hc.2, b, by rw [h]⟩
        · rintro ⟨-, -, -, b', heq⟩; cases heq; rfl
      | exn e =>
        constructor
        · intro h; cases h
        · rintro ⟨-, -, -, b', heq⟩; cases heq
    | false =>
      rw [if_pos (by simp [hc])]
      constructor
      · intro h; cases h
      · rintro ⟨h1, h2, h3, -⟩
        rw [h1, h2, h3] at hc
        cases hc

/-- C10 counterexample: with `CCAI_API_KEY` set to the empty string (present
in the environment but falsy) and `CCAI_CLIENT_ID` set and non-empty,
construction still raises `ValueError`, so "raises exactly when the API key
or the client ID is absent from the environment" fails. -/
theorem c10_counterexample :
    ccapiInitOk ⟨some "", some "client-1231", some "https://core.cloudcontactai.com"⟩ = false ∧
    (some "" : Option String) ≠ none ∧
    (some "client-1231" : Option String) ≠ none := by
  refine ⟨by decide, by decide, by decide⟩

/-- C10 amended: construction succeeds exactly when the API key and client
id are both truthy (present and non-empty); `CCAI_EMAIL_URL` never affects
construction, so a client can be built with the delivery URL unset and only
a later send attempt fails. -/
theorem c10_amended :
    ∀ env : EnvCfg, ccapiInitOk env = true ↔
      (truthyOpt env.ccaiApiKey = true ∧ truthyOpt env.ccaiClientId = true) := by
  intro env
  unfold ccapiInitOk ccapiInit
  by_cases h1 : truthyOpt env.ccaiApiKey
  · by_cases h2 : truthyOpt env.ccaiClientId
    · rw [if_neg (by simp [h1, h2])]
      simp [h1, h2]
    · rw [if_pos (by simp [h1, h2])]
      simp [h2]
  · rw [if_pos (by simp [h1])]
    simp [h1]

/-! ## Profile Scraper and fallback profile (C2, C8)

`AIEmailGenerator.scrape_linkedin_with_posts` and
`AIEmailGenerator._create_fallback_profile` (ai_email_generator.py lines
98-222).  The browser is an oracle: a navigation either raises or yields a
page title, a current URL, and the candidate element texts per selector
group. -/

/-- One record of `recent_posts`. -/
structure Post where
  text : String
  date : String
deriving DecidableEq

/-- One record of `experiences`; fields may be absent in cached dicts. -/
structure Exp where
  position_title : Option String
  institution_name : Option String
  duration : Option String
deriving DecidableEq

/-- The dict returned by the Scraper: it always carries all seven keys. -/
structure ScrapedProfile where
  name : String
  company : String
  job_title : String
  about : String
  recent_posts : List Post
  location : String
  experiences : List Exp
deriving DecidableEq

/-- A character kept by the fallback-name loop: a letter or a separator. -/
def keepChar (c : Char) : Bool :=
  c.isAlpha || c = '-' || c = '_'

/-- Python `part.capitalize()` at character-list level. -/
def pyCapL : List Char → List Char
  | [] => []
  | c :: cs => c.toUpper :: cs.map Char.toLower

/-- The character loop of `_create_fallback_profile` (lines 169-182):
`current_part` is the pending buffer, `acc` the `name_parts` list; parts are
capitalized as they are pushed, and the pending buffer is flushed at the
end. -/
def fbLoop : List Char → List Char → List (List Char) → List (List Char)
  | [], cur, acc => if cur.isEmpty then acc else acc ++ [pyCapL cur]
  | ch :: rest, cur, acc =>
    if ch.isUpper && !cur.isEmpty then fbLoop rest [ch] (acc ++ [pyCapL cur])
    else if ch.isAlpha then fbLoop rest (cur ++ [ch]) acc
    else if (ch = '-' || ch = '_') && !cur.isEmpty then fbLoop rest [] (acc ++ [pyCapL cur])
    else fbLoop rest cur acc

/-- Fallback display name derived from a non-empty, non-"unknown" profile
slug (lines 167-184). -/
def fallbackNameOfSlug (slug : String) : String :=
  let parts := fbLoop slug.data [] []
  if !parts.isEmpty then ⟨pyJoinL [' '] parts⟩ else "LinkedIn User"

/-- `_create_fallback_profile` (lines 160-198). -/
def createFallbackProfile (linkedin_url : String) : ScrapedProfile :=
  let url_parts := (splitChL '/' (pyRstripSlash linkedin_url).data).map String.mk
  let profile_slug := url_parts.getLast?.getD "unknown"
  let fallback_name :=
    if profile_slug ≠ "" && profile_slug ≠ "unknown" then fallbackNameOfSlug profile_slug
    else "LinkedIn User"
  { name := fallback_name
    company := "Company not available"
    job_title := "Professional"
    about := "LinkedIn profile information not available due to access restrictions."
    recent_posts := []
    location := "Location not available"
    experiences := [] }

/-- `_extract_element_text` (lines 200-214): the DOM supplies the candidate
element texts in selector order; the first stripped, non-empty text passing
the filter wins, otherwise the default placeholder. -/
def extractElementText (texts : List String) (dflt : String) (filt : String → Bool) : String :=
  match texts with
  | [] => dflt
  | t :: ts =>
    let t' := pyStrip t
    if t' ≠ "" && filt t' then t' else extractElementText ts dflt filt

/-- Split on a multi-character separator, String level. -/
def splitSeqS (sep s : String) : List String :=
  match sep.data with
  | [] => [s]
  | p :: ps => (splitSeqL p ps s.data).map String.mk

/-- `_extract_company_from_headline` (lines 216-222). -/
def extractCompanyFromHeadline (headline : String) : String :=
  if sContainsB " at " headline then
    pyStrip (((splitSeqS " at " headline).getLast?).getD headline)
  else if sContainsB " @ " headline then
    pyStrip (((splitSeqS " @ " headline).getLast?).getD headline)
  else "Company not found"

/-- The blocked-page test of lines 110-117, applied to the lower-cased page
title and current URL. -/
def blockedPage (title currentUrl : String) : Bool :=
  sContainsB ("this page isn" ++ apos ++ "t working") (pyLower title) ||
  sContainsB "login" (pyLower currentUrl) ||
  sContainsB "authwall" (pyLower currentUrl) ||
  sContainsB "challenge" (pyLower currentUrl)

/-- Outcome of navigating the browser to the profile URL: either some step
raised (caught by the enclosing `try`), or a settled page with element
texts for the name / headline / location selector groups. -/
inductive NavResult where
  | err (msg : String)
  | page (title currentUrl : String) (nameTexts headlineTexts locationTexts : List String)
deriving DecidableEq

/-- `scrape_linkedin_with_posts` (lines 98-158): every failure path returns
the fallback profile; the function is total over navigation outcomes and
never raises. -/
def scrapeLinkedInWithPosts (nav : NavResult) (linkedin_url : String) : ScrapedProfile :=
  match nav with
  | .err _ => createFallbackProfile linkedin_url
  | .page title currentUrl nameTexts headlineTexts locationTexts =>
    if blockedPage title currentUrl then createFallbackProfile linkedin_url
    else
      let name := extractElementText nameTexts "Name not found" (fun _ => true)
      let headline := extractElementText headlineTexts "Headline not found"
        (fun x => decide (x.length > 5) && !(sContainsB "connections" (pyLower x)))
      let location := extractElementText locationTexts "Location not found"
        (fun x => sContainsB "," x)
      if name = "Name not found" && headline = "Headline not found" then
        createFallbackProfile linkedin_url
      else
        { name := name
          company := extractCompanyFromHeadline headline
          job_title := headline
          about := ""
          recent_posts := []
          location := location
          experiences := [] }

/-- The navigation failed or the page is blocked: the situations the C2
claim ranges over. -/
def navBlockedOrErr : NavResult → Bool
  | .err _ => true
  | .page title currentUrl _ _ _ => blockedPage title currentUrl

/-- A value stored in a profile dict field. -/
inductive FieldVal where
  | vstr (s : String)
  | vposts (l : List Post)
  | vexps (l : List Exp)
deriving DecidableEq

/-- The seven fields of the scraper's result dict, in insertion order. -/
def scrapedFields (p : ScrapedProfile) : List FieldVal :=
  [.vstr p.name, .vstr p.company, .vstr p.job_title, .vstr p.about,
   .vposts p.recent_posts, .vstr p.location, .vexps p.experiences]

/-- The field holds a non-empty string. -/
def isNonEmptyStrField : FieldVal → Bool
  | .vstr s => s ≠ ""
  | .vposts _ => false
  | .vexps _ => false

/-- Every field of the profile dict holds a non-empty string (the C2
claim's property). -/
def allFieldsNonEmptyStr (p : ScrapedProfile) : Bool :=
  (scrapedFields p).all isNonEmptyStrField

theorem pyCapL_ne_nil {cur : List Char} (h : cur ≠ []) : pyCapL cur ≠ [] := by
  cases cur with
  | nil => exact absurd rfl h
  | cons c cs => simp [pyCapL]

theorem fbLoop_parts_ne_nil :
    ∀ (l cur : List Char) (acc : List (List Char)),
      (∀ p ∈ acc, p ≠ []) → ∀ p ∈ fbLoop l cur acc, p ≠ [] := by
  intro l
  induction l with
  | nil =>
    intro cur acc hacc p hp
    simp only [fbLoop] at hp
    by_cases hc : cur.isEmpty
    · rw [if_pos hc] at hp; exact hacc p hp
    · rw [if_neg hc] at hp
      rcases List.mem_append.mp hp with h | h
      · exact hacc p h
      · have : p = pyCapL cur := by simpa using h
        subst this
        exact pyCapL_ne_nil (by simpa [List.isEmpty_iff] using hc)
  | cons ch rest ih =>
    intro cur acc hacc p hp
    simp only [fbLoop] at hp
    split at hp
    · next hcond =>
      refine ih [ch] (acc ++ [pyCapL cur]) ?_ p hp
      intro q hq
      rcases List.mem_append.mp hq with h | h
      · exact hacc q h
      · have : q = pyCapL cur := by simpa using h
        subst this
        simp only [Bool.and_eq_true, Bool.not_eq_true'] at hcond
        exact pyCapL_ne_nil (by simpa [List.isEmpty_iff] using hcond.2)
    · split at hp
      · exact ih (cur ++ [ch]) acc hacc p hp
      · split at hp
        · next hcond =>
          refine ih [] (acc ++ [pyCapL cur]) ?_ p hp
          intro q hq
          rcases List.mem_append.mp hq with h | h
          · exact hacc q h
          · have : q = pyCapL cur := by simpa using h
            subst this
            simp only [Bool.and_eq_true, Bool.not_eq_true'] at hcond
            exact pyCapL_ne_nil (by simpa [List.isEmpty_iff] using hcond.2)
        · exact ih cur acc hacc p hp

theorem pyJoinL_ne_nil {sep : List Char} {p : List Char} (ps : List (List Char))
    (h : p ≠ []) : pyJoinL sep (p :: ps) ≠ [] := by
  cases ps with
  | nil => simpa [pyJoinL] using h
  | cons q qs =>
    simp only [pyJoinL]
    intro hcontra
    rcases List.append_eq_nil.mp (List.append_eq_nil.mp hcontra).1 with ⟨h1, -⟩
    exact h h1

theorem fallbackNameOfSlug_ne (slug : String) : fallbackNameOfSlug slug ≠ "" := by
  unfold fallbackNameOfSlug
  cases hp : fbLoop slug.data [] [] with
  | nil => simp [hp]
  | cons p ps =>
    have hpne : p ≠ [] :=
      fbLoop_parts_ne_nil slug.data [] [] (by simp) p (by rw [hp]; exact List.mem_cons_self p ps)
    simp only [List.isEmpty_cons, Bool.not_false, if_pos]
    intro hcontra
    have : pyJoinL [' '] (p :: ps) = [] := congrArg String.data hcontra
    exact pyJoinL_ne_nil ps hpne this

theorem createFallbackProfile_name_ne (url : String) :
    (createFallbackProfile url).name ≠ "" := by
  unfold createFallbackProfile
  dsimp only
  split
  · exact fallbackNameOfSlug_ne _
  · decide

/-- C2 counterexample: on a blocked page the scraper does return the
fallback profile, but its `recent_posts` and `experiences` fields hold
empty lists rather than non-empty placeholder strings, so "every field
holds a non-empty placeholder string" fails. -/
theorem c2_counterexample :
    scrapeLinkedInWithPosts
        (.page ("This page isn" ++ apos ++ "t working") "https://www.linkedin.com/in/joelgarcia" [] [] [])
        "https://www.linkedin.com/in/joelgarcia"
      = createFallbackProfile "https://www.linkedin.com/in/joelgarcia" ∧
    allFieldsNonEmptyStr (createFallbackProfile "https://www.linkedin.com/in/joelgarcia") = false ∧
    FieldVal.vposts [] ∈ scrapedFields (createFallbackProfile "https://www.linkedin.com/in/joelgarcia") := by
  refine ⟨by decide, by decide, by decide⟩

/-- C2 amended: whenever navigation raises or the page is blocked, the
scrape call returns (never raises) the fallback profile, whose five
string-valued fields all hold non-empty placeholder strings and whose
`recent_posts` and `experiences` fields are empty lists. -/
theorem c2_amended (nav : NavResult) (url : String)
    (h : navBlockedOrErr nav = true) :
    scrapeLinkedInWithPosts nav url = createFallbackProfile url ∧
    (createFallbackProfile url).name ≠ "" ∧
    (createFallbackProfile url).company ≠ "" ∧
    (createFallbackProfile url).job_title ≠ "" ∧
    (createFallbackProfile url).about ≠ "" ∧
    (createFallbackProfile url).location ≠ "" ∧
    (createFallbackProfile url).recent_posts = [] ∧
    (createFallbackProfile url).experiences = [] := by
  refine ⟨?_, createFallbackProfile_name_ne url, ?_, ?_, ?_, ?_, ?_, ?_⟩
  · cases nav with
    | err m => rfl
    | page t u nt ht lt =>
      simp only [navBlockedOrErr] at h
      simp only [scrapeLinkedInWithPosts, h, if_true]
  all_goals simp [createFallbackProfile]

/-- Witness for `c2_amended` at a concrete blocked navigation. -/
theorem c2_amended_witness :
    scrapeLinkedInWithPosts (.page "Profile" "https://www.linkedin.com/authwall?next=x" [] [] [])
        "https://www.linkedin.com/in/jane-doe"
      = createFallbackProfile "https://www.linkedin.com/in/jane-doe" ∧
    (createFallbackProfile "https://www.linkedin.com/in/jane-doe").name ≠ "" ∧
    (createFallbackProfile "https://www.linkedin.com/in/jane-doe").company ≠ "" ∧
    (createFallbackProfile "https://www.linkedin.com/in/jane-doe").job_title ≠ "" ∧
    (createFallbackProfile "https://www.linkedin.com/in/jane-doe").about ≠ "" ∧
    (createFallbackProfile "https://www.linkedin.com/in/jane-doe").location ≠ "" ∧
    (createFallbackProfile "https://www.linkedin.com/in/jane-doe").recent_posts = [] ∧
    (createFallbackProfile "https://www.linkedin.com/in/jane-doe").experiences = [] :=
  c2_amended (.page "Profile" "https://www.linkedin.com/authwall?next=x" [] [] [])
    "https://www.linkedin.com/in/jane-doe" (by decide)

/-! ## The fallback display name, structurally (C8) -/

/-- A letter that does not trigger a split while a part is pending: the
loop appends exactly the non-uppercase letters to a pending part. -/
def lowAl (d : Char) : Bool := d.isAlpha && !d.isUpper

/-- Structural description of the parts the fallback-name loop produces on
an input of letters and separators: separators are skipped, and each part
is one leading letter followed by the maximal run of non-uppercase
letters. -/
def wordsOf : List Char → List (List Char)
  | [] => []
  | c :: cs =>
    if c = '-' || c = '_' then wordsOf cs
    else (c :: cs.takeWhile lowAl) :: wordsOf (cs.dropWhile lowAl)
termination_by l => l.length
decreasing_by
  all_goals simp only [List.length_cons]
  · omega
  · exact Nat.lt_succ_of_le (length_dropWhile_le' lowAl _)

theorem fbLoop_filter :
    ∀ (l cur : List Char) (acc : List (List Char)),
      fbLoop l cur acc = fbLoop (l.filter keepChar) cur acc := by
  intro l
  induction l with
  | nil => intro cur acc; rfl
  | cons ch rest ih =>
    intro cur acc
    by_cases hk : keepChar ch
    · rw [List.filter_cons_of_pos hk]
      simp only [fbLoop]
      split
      · exact ih [ch] (acc ++ [pyCapL cur])
      · split
        · exact ih (cur ++ [ch]) acc
        · split
          · exact ih [] (acc ++ [pyCapL cur])
          · exact ih cur acc
    · rw [List.filter_cons_of_neg hk]
      have hA : ch.isAlpha = false := by
        cases ha : ch.isAlpha
        · rfl
        · exact absurd (by simp [keepChar, ha]) hk
      have h1 : ch ≠ '-' := fun hc => hk (by simp [keepChar, hc])
      have h2 : ch ≠ '_' := fun hc => hk (by simp [keepChar, hc])
      have hU : ch.isUpper = false := by
        cases hu : ch.isUpper
        · rfl
        · rw [show ch.isAlpha = (ch.isUpper || ch.isLower) from rfl, hu] at hA
          simp at hA
      rw [show fbLoop (ch :: rest) cur acc = fbLoop rest cur acc from by
        simp [fbLoop, hA, hU, decide_eq_false h1, decide_eq_false h2]]
      exact ih cur acc

theorem isEmpty_false_of_ne_nil {cur : List Char} (hcur : cur ≠ []) :
    cur.isEmpty = false := by
  cases cur with
  | nil => exact absurd rfl hcur
  | cons a b => rfl

theorem fbLoop_words :
    ∀ l : List Char, (∀ c ∈ l, keepChar c = true) →
      (∀ acc, fbLoop l [] acc = acc ++ (wordsOf l).map pyCapL) ∧
      (∀ cur acc, cur ≠ [] →
        fbLoop l cur acc =
          acc ++ pyCapL (cur ++ l.takeWhile lowAl) :: (wordsOf (l.dropWhile lowAl)).map pyCapL) := by
  intro l
  induction l with
  | nil =>
    intro _
    constructor
    · intro acc; simp [fbLoop, wordsOf]
    · intro cur acc hcur
      simp [fbLoop, wordsOf, isEmpty_false_of_ne_nil hcur]
  | cons ch rest ih =>
    intro hkeep
    obtain ⟨ihMain, ihAux⟩ := ih (fun c hc => hkeep c (List.mem_cons_of_mem ch hc))
    have hkch := hkeep ch (List.mem_cons_self ch rest)
    cases hU : ch.isUpper with
    | true =>
      have hA : ch.isAlpha = true := by
        rw [show ch.isAlpha = (ch.isUpper || ch.isLower) from rfl, hU]; rfl
      have h1 : ch ≠ '-' := fun hh => by rw [hh] at hU; exact absurd hU (by decide)
      have h2 : ch ≠ '_' := fun hh => by rw [hh] at hU; exact absurd hU (by decide)
      have hlow : lowAl ch = false := by simp [lowAl, hU]
      have hwords : wordsOf (ch :: rest) =
          (ch :: rest.takeWhile lowAl) :: wordsOf (rest.dropWhile lowAl) := by
        rw [wordsOf]
        rw [if_neg (by simp [decide_eq_false h1, decide_eq_false h2])]
      constructor
      · intro acc
        simp only [fbLoop, List.isEmpty_nil, Bool.not_true, Bool.and_false,
          if_neg Bool.false_ne_true, hA, if_pos rfl, List.nil_append]
        rw [ihAux [ch] acc (by simp), hwords]
        simp
      · intro cur acc hcur
        simp only [fbLoop, isEmpty_false_of_ne_nil hcur, hU, Bool.not_false,
          Bool.and_true, if_pos rfl]
        rw [ihAux [ch] (acc ++ [pyCapL cur]) (by simp)]
        simp only [List.takeWhile_cons, List.dropWhile_cons, hlow,
          if_neg Bool.false_ne_true, List.append_nil]
        rw [hwords]
        simp
    | false =>
      cases hA : ch.isAlpha with
      | true =>
        have h1 : ch ≠ '-' := fun hh => by rw [hh] at hA; exact absurd hA (by decide)
        have h2 : ch ≠ '_' := fun hh => by rw [hh] at hA; exact absurd hA (by decide)
        have hlow : lowAl ch = true := by simp [lowAl, hA, hU]
        have hwords : wordsOf (ch :: rest) =
            (ch :: rest.takeWhile lowAl) :: wordsOf (rest.dropWhile lowAl) := by
          rw [wordsOf]
          rw [if_neg (by simp [decide_eq_false h1, decide_eq_false h2])]
        constructor
        · intro acc
          simp only [fbLoop, List.isEmpty_nil, Bool.not_true, Bool.and_false,
            if_neg Bool.false_ne_true, hA, if_pos rfl, List.nil_append]
          rw [ihAux [ch] acc (by simp), hwords]
          simp
        · intro cur acc hcur
          simp only [fbLoop, isEmpty_false_of_ne_nil hcur, hU, Bool.false_and,
            if_neg Bool.false_ne_true, hA, if_pos rfl]
          rw [ihAux (cur ++ [ch]) acc (by simp)]
          simp only [List.takeWhile_cons, List.dropWhile_cons, hlow, if_pos rfl]
          simp
      | false =>
        have hS : (decide (ch = '-') || decide (ch = '_')) = true := by
          have := hkch
          simp only [keepChar, hA, Bool.false_or] at this
          exact this
        have hlow : lowAl ch = false := by simp [lowAl, hA]
        have hwords : wordsOf (ch :: rest) = wordsOf rest := by
          rw [wordsOf, if_pos hS]
        constructor
        · intro acc
          simp only [fbLoop, List.isEmpty_nil, Bool.not_true, Bool.and_false,
            if_neg Bool.false_ne_true, hA, if_neg Bool.false_ne_true]
          rw [ihMain acc, hwords]
        · intro cur acc hcur
          simp only [fbLoop, isEmpty_false_of_ne_nil hcur, hU, Bool.false_and,
            if_neg Bool.false_ne_true, hA, hS, Bool.not_false, Bool.and_true,
            if_pos rfl]
          rw [ihMain (acc ++ [pyCapL cur])]
          simp only [List.takeWhile_cons, List.dropWhile_cons, hlow,
            if_neg Bool.false_ne_true, List.append_nil]
          rw [hwords]
          simp

/-- The fallback display name as the amended C8 claim describes it:
discard every character that is neither a letter nor `-`/`_`, split before
every uppercase letter and at the separators, capitalize each part
(lower-casing its remainder), join with spaces, and use the placeholder
when no parts result. -/
def amendedNameOfSlug (slug : String) : String :=
  let parts := (wordsOf (slug.data.filter keepChar)).map pyCapL
  if !parts.isEmpty then ⟨pyJoinL [' '] parts⟩ else "LinkedIn User"

/-- Slug extraction shared by both name derivations: the last segment of
the `/`-split of the URL with trailing slashes removed. -/
def slugOfUrl (url : String) : String :=
  (((splitChL '/' (pyRstripSlash url).data).map String.mk).getLast?).getD "unknown"

/-- The amended C8 derivation lifted to URLs, including the guard on empty
and `"unknown"` slugs. -/
def amendedNameOfUrl (url : String) : String :=
  let seg := slugOfUrl url
  if seg ≠ "" && seg ≠ "unknown" then amendedNameOfSlug seg else "LinkedIn User"

/-- Splitting a segment at lowercase-to-uppercase transitions, keeping
every character: the splitting step exactly as the C8 claim words it. -/
def caseSplitGo (cur : List Char) : List Char → List (List Char)
  | [] => [cur]
  | d :: ds =>
    if (cur.getLast?.elim false Char.isLower) && d.isUpper then
      cur :: caseSplitGo [d] ds
    else caseSplitGo (cur ++ [d]) ds

/-- Split a non-empty list at case boundaries. -/
def caseSplit : List Char → List (List Char)
  | [] => []
  | c :: cs => caseSplitGo [c] cs

/-- The C8 claim's name derivation, taken from the claim's own words:
split the URL path's last segment on case boundaries
(lowercase-to-uppercase transitions) and on `-`/`_`, capitalize each
resulting part, join with spaces; a generic placeholder when no parts
result. -/
def claimNameOfUrl (url : String) : String :=
  let seg := slugOfUrl url
  let sepParts := (splitChL '-' seg.data).flatMap (splitChL '_')
  let parts := (sepParts.flatMap caseSplit).filter (fun p => !p.isEmpty)
  if !parts.isEmpty then ⟨pyJoinL [' '] (parts.map pyCapL)⟩ else "LinkedIn User"

/-- C8 counterexample: for the slug `user1` the code drops the digit (a
character that is neither a letter nor a separator) and produces `User`,
while the claim's split-and-capitalize derivation produces `User1`. -/
theorem c8_counterexample :
    (createFallbackProfile "https://linkedin.com/in/user1").name = "User" ∧
    claimNameOfUrl "https://linkedin.com/in/user1" = "User1" ∧
    ("User" : String) ≠ "User1" := by
  refine ⟨by decide, by decide, by decide⟩

/-- C8 amended: the fallback name keeps only letters and the separators
`-`/`_`, splits before every uppercase letter and at separators, drops the
separators, capitalizes each part (lower-casing its remainder) and joins
with spaces; when no parts result (and for empty or `"unknown"` slugs) the
placeholder `LinkedIn User` is used. -/
theorem c8_amended (url : String) :
    (createFallbackProfile url).name = amendedNameOfUrl url := by
  unfold createFallbackProfile amendedNameOfUrl
  dsimp only
  rw [show (((splitChL '/' (pyRstripSlash url).data).map String.mk).getLast?).getD "unknown"
      = slugOfUrl url from rfl]
  split
  · unfold fallbackNameOfSlug amendedNameOfSlug
    rw [fbLoop_filter]
    rw [(fbLoop_words ((slugOfUrl url).data.filter keepChar)
      (fun c hc => (List.mem_filter.mp hc).2)).1 []]
    rw [List.nil_append]
  · rfl

/-! ## Prompt Formatter (C3)

`AIEmailGenerator.format_profile_for_ai` (ai_email_generator.py lines
224-265) and `AIEmailGenerator.format_profile_info` (ai_gmail_outbound.py
lines 89-126).  A profile dict fed to the formatter (scraped or re-read
from a cache file) may lack keys, so its string entries are `Option`;
`recent_posts` and `experiences` are read with default `[]`, making an
absent key indistinguishable from an empty list. -/

/-- A profile dict as consumed by the formatters. -/
structure PersonData where
  name : Option String
  company : Option String
  job_title : Option String
  about : Option String
  recent_activity : Option String
  recent_posts : List Post
  experiences : List Exp
deriving DecidableEq

/-- A CSV contact row; every access in the sources is `row.get(key, "")`,
so an absent column and an empty value coincide and fields are plain
strings. -/
structure CsvRow where
  firstName : String
  lastName : String
  email : String
  company : String
  title : String
  industry : String
  awsUser : String
  linkedinUrl : String
deriving DecidableEq

/-- `person_data.get('name', csv_data.get('First Name', '') if csv_data else '')`. -/
def effName (p : PersonData) (csv : Option CsvRow) : String :=
  match p.name with
  | some s => s
  | none => match csv with | some r => r.firstName | none => ""

/-- `person_data.get('job_title', csv_data.get('Title', '') if csv_data else '')`. -/
def effTitle (p : PersonData) (csv : Option CsvRow) : String :=
  match p.job_title with
  | some s => s
  | none => match csv with | some r => r.title | none => ""

/-- `person_data.get('company', csv_data.get('Company', '') if csv_data else '')`. -/
def effCompany (p : PersonData) (csv : Option CsvRow) : String :=
  match p.company with
  | some s => s
  | none => match csv with | some r => r.company | none => ""

/-- The numbered post lines of `format_profile_for_ai`
(`enumerate(recent_posts, 1)`). -/
def postLines (i : Nat) : List Post → List String
  | [] => []
  | post :: ps => ("Post " ++ toString i ++ ": " ++ post.text) :: postLines (i + 1) ps

/-- The experience bullet lines: one line per experience that has both a
truthy `position_title` and a truthy `institution_name`. -/
def expLines : List Exp → List String
  | [] => []
  | e :: es =>
    (if truthyOpt e.position_title && truthyOpt e.institution_name then
      ["- " ++ e.position_title.getD "" ++ " at " ++ e.institution_name.getD ""]
    else []) ++ expLines es

/-- The `profile_info` list built by `format_profile_for_ai` (lines
224-265), before the final newline join. -/
def formatProfileLines (p : PersonData) (csv : Option CsvRow) : List String :=
  ["Name: " ++ effName p csv,
   "Role: " ++ effTitle p csv ++ " at " ++ effCompany p csv]
  ++ (if truthyOpt p.about then ["About: " ++ p.about.getD ""] else [])
  ++ (if !p.recent_posts.isEmpty then
        "Recent LinkedIn Posts:" :: postLines 1 p.recent_posts
      else [])
  ++ (if !p.experiences.isEmpty then
        "Recent Experience:" :: expLines p.experiences
      else [])
  ++ (match csv with
      | none => []
      | some r =>
        (if r.industry ≠ "" then ["Industry: " ++ r.industry] else [])
        ++ (if r.awsUser ≠ "" && sContainsB "confirmed" (pyLower r.awsUser) then
              ["AWS Usage: " ++ r.awsUser]
            else []))

/-- `format_profile_for_ai` returns the newline join of its lines. -/
def formatProfileForAI (p : PersonData) (csv : Option CsvRow) : String :=
  pyJoinS "\n" (formatProfileLines p csv)

/-- The `profile_info` list built by `format_profile_info`
(ai_gmail_outbound.py lines 89-126): `about` truncated to 300 characters,
at most two experiences, a `Recent Post:` line from `recent_activity`
truncated to 200 characters, and a mandatory CSV row. -/
def formatProfileInfoLines (p : PersonData) (r : CsvRow) : List String :=
  ["Name: " ++ effName p (some r),
   "Role: " ++ effTitle p (some r) ++ " at " ++ effCompany p (some r)]
  ++ (if truthyOpt p.about then ["About: " ++ pyTake 300 (p.about.getD "")] else [])
  ++ (if !p.experiences.isEmpty then
        "Recent Experience:" :: expLines (p.experiences.take 2)
      else [])
  ++ (if truthyOpt p.recent_activity then
        ["Recent Post: " ++ pyTake 200 (p.recent_activity.getD "")]
      else [])
  ++ (if r.industry ≠ "" then ["Industry: " ++ r.industry] else [])
  ++ (if r.awsUser ≠ "" && sContainsB "confirmed" (pyLower r.awsUser) then
        ["AWS Usage: " ++ r.awsUser]
      else [])

/-- `format_profile_info` returns the newline join of its lines. -/
def formatProfileInfo (p : PersonData) (r : CsvRow) : String :=
  pyJoinS "\n" (formatProfileInfoLines p r)

/-- The C3 claim's property for `format_profile_for_ai`: a line "for" the
name field (a line starting with its label) appears only when the
effective name is non-empty, and likewise for the role line. -/
def noLineForEmptyField (p : PersonData) (csv : Option CsvRow) : Prop :=
  (effName p csv = "" →
    ∀ l ∈ formatProfileLines p csv, pyStarts "Name:" l = false) ∧
  (effTitle p csv = "" ∧ effCompany p csv = "" →
    ∀ l ∈ formatProfileLines p csv, pyStarts "Role:" l = false)

theorem truthyOpt_iff (o : Option String) :
    truthyOpt o = true ↔ ∃ s, o = some s ∧ s ≠ "" := by
  cases o with
  | none => simp [truthyOpt]
  | some s => simp [truthyOpt]

theorem mem_postLines {l : String} :
    ∀ (i : Nat) (ps : List Post), l ∈ postLines i ps →
      ∃ j : Nat, ∃ post ∈ ps, l = "Post " ++ toString j ++ ": " ++ post.text := by
  intro i ps
  induction ps generalizing i with
  | nil => intro h; simp [postLines] at h
  | cons post ps ih =>
    intro h
    rcases List.mem_cons.mp h with h | h
    · exact ⟨i, post, List.mem_cons_self post ps, h⟩
    · obtain ⟨j, q, hq, heq⟩ := ih (i + 1) h
      exact ⟨j, q, List.mem_cons_of_mem post hq, heq⟩

theorem mem_expLines {l : String} :
    ∀ es : List Exp, l ∈ expLines es →
      ∃ e ∈ es, truthyOpt e.position_title = true ∧ truthyOpt e.institution_name = true ∧
        l = "- " ++ e.position_title.getD "" ++ " at " ++ e.institution_name.getD "" := by
  intro es
  induction es with
  | nil => intro h; simp [expLines] at h
  | cons e es ih =>
    intro h
    simp only [expLines] at h
    rcases List.mem_append.mp h with h | h
    · split at h
      · next hcond =>
        obtain ⟨h1, h2⟩ := Bool.and_eq_true .. ▸ hcond
        have : l = "- " ++ e.position_title.getD "" ++ " at " ++ e.institution_name.getD "" := by
          simpa using h
        exact ⟨e, List.mem_cons_self e es, h1, h2, this⟩
      · simp at h
    · obtain ⟨e', he', h1, h2, heq⟩ := ih h
      exact ⟨e', List.mem_cons_of_mem e he', h1, h2, heq⟩

/-- C3 counterexample: with an empty profile dict and no CSV row, the
formatter still emits the lines `"Name: "` and `"Role:  at "` although the
name, title and company fields are all empty, so "every emitted line
corresponds to a non-empty field" fails. -/
theorem c3_counterexample :
    formatProfileLines ⟨none, none, none, none, none, [], []⟩ none = ["Name: ", "Role:  at "] ∧
    effName ⟨none, none, none, none, none, [], []⟩ none = "" ∧
    ¬ noLineForEmptyField ⟨none, none, none, none, none, [], []⟩ none := by
  refine ⟨by decide, by decide, ?_⟩
  intro h
  have := h.1 (by decide) "Name: " (by decide)
  exact absurd this (by decide)

/-- C3 amended: the Name and Role lines are always emitted, even when their
fields are empty or absent; every other emitted line belongs to a non-empty
optional field (about, a post, an experience with both parts, the CSV
industry, or a confirmed AWS-usage value), in both formatters. -/
theorem c3_amended (p : PersonData) (csv : Option CsvRow) (r : CsvRow) :
    (("Name: " ++ effName p csv) ∈ formatProfileLines p csv ∧
     ("Role: " ++ effTitle p csv ++ " at " ++ effCompany p csv) ∈ formatProfileLines p csv ∧
     ∀ l ∈ formatProfileLines p csv,
       l = "Name: " ++ effName p csv ∨
       l = "Role: " ++ effTitle p csv ++ " at " ++ effCompany p csv ∨
       (∃ a, p.about = some a ∧ a ≠ "" ∧ l = "About: " ++ a) ∨
       (p.recent_posts ≠ [] ∧ (l = "Recent LinkedIn Posts:" ∨
         ∃ j : Nat, ∃ post ∈ p.recent_posts, l = "Post " ++ toString j ++ ": " ++ post.text)) ∨
       (p.experiences ≠ [] ∧ (l = "Recent Experience:" ∨
         ∃ e ∈ p.experiences, truthyOpt e.position_title = true ∧
           truthyOpt e.institution_name = true ∧
           l = "- " ++ e.position_title.getD "" ++ " at " ++ e.institution_name.getD "")) ∨
       (∃ row, csv = some row ∧
         ((row.industry ≠ "" ∧ l = "Industry: " ++ row.industry) ∨
          (row.awsUser ≠ "" ∧ sContainsB "confirmed" (pyLower row.awsUser) = true ∧
            l = "AWS Usage: " ++ row.awsUser)))) ∧
    (("Name: " ++ effName p (some r)) ∈ formatProfileInfoLines p r ∧
     ("Role: " ++ effTitle p (some r) ++ " at " ++ effCompany p (some r)) ∈ formatProfileInfoLines p r ∧
     ∀ l ∈ formatProfileInfoLines p r,
       l = "Name: " ++ effName p (some r) ∨
       l = "Role: " ++ effTitle p (some r) ++ " at " ++ effCompany p (some r) ∨
       (∃ a, p.about = some a ∧ a ≠ "" ∧ l = "About: " ++ pyTake 300 a) ∨
       (p.experiences ≠ [] ∧ (l = "Recent Experience:" ∨
         ∃ e ∈ p.experiences, truthyOpt e.position_title = true ∧
           truthyOpt e.institution_name = true ∧
           l = "- " ++ e.position_title.getD "" ++ " at " ++ e.institution_name.getD "")) ∨
       (∃ act, p.recent_activity = some act ∧ act ≠ "" ∧
         l = "Recent Post: " ++ pyTake 200 act) ∨
       (r.industry ≠ "" ∧ l = "Industry: " ++ r.industry) ∨
       (r.awsUser ≠ "" ∧ sContainsB "confirmed" (pyLower r.awsUser) = true ∧
         l = "AWS Usage: " ++ r.awsUser)) := by
  refine ⟨⟨by simp [formatProfileLines], by simp [formatProfileLines], ?_⟩,
          ⟨by simp [formatProfileInfoLines], by simp [formatProfileInfoLines], ?_⟩⟩
  · intro l hl
    unfold formatProfileLines at hl
    rcases List.mem_append.mp hl with hl | hcsv
    rcases List.mem_append.mp hl with hl | hexp
    rcases List.mem_append.mp hl with hl | hposts
    rcases List.mem_append.mp hl with hl | habout
    · rcases List.mem_cons.mp hl with h | h
      · exact Or.inl h
      · exact Or.inr (Or.inl (by simpa using h))
    · split at habout
      · next hcond =>
        obtain ⟨a, ha, hane⟩ := (truthyOpt_iff p.about).mp hcond
        refine Or.inr (Or.inr (Or.inl ⟨a, ha, hane, ?_⟩))
        have : l = "About: " ++ p.about.getD "" := by simpa using habout
        rwa [ha] at this
      · simp at habout
    · split at hposts
      · next hcond =>
        have hne : p.recent_posts ≠ [] := by
          simpa [List.isEmpty_iff] using hcond
        rcases List.mem_cons.mp hposts with h | h
        · exact Or.inr (Or.inr (Or.inr (Or.inl ⟨hne, Or.inl h⟩)))
        · obtain ⟨j, post, hpost, heq⟩ := mem_postLines 1 p.recent_posts h
          exact Or.inr (Or.inr (Or.inr (Or.inl ⟨hne, Or.inr ⟨j, post, hpost, heq⟩⟩)))
      · simp at hposts
    · split at hexp
      · next hcond =>
        have hne : p.experiences ≠ [] := by
          simpa [List.isEmpty_iff] using hcond
        rcases List.mem_cons.mp hexp with h | h
        · exact Or.inr (Or.inr (Or.inr (Or.inr (Or.inl ⟨hne, Or.inl h⟩))))
        · obtain ⟨e, he, h1, h2, heq⟩ := mem_expLines p.experiences h
          exact Or.inr (Or.inr (Or.inr (Or.inr (Or.inl ⟨hne, Or.inr ⟨e, he, h1, h2, heq⟩⟩))))
      · simp at hexp
    · match csv with
      | none => simp at hcsv
      | some row =>
        refine Or.inr (Or.inr (Or.inr (Or.inr (Or.inr ⟨row, rfl, ?_⟩))))
        rcases List.mem_append.mp hcsv with h | h
        · split at h
          · next hcond => exact Or.inl ⟨hcond, by simpa using h⟩
          · simp at h
        · split at h
          · next hcond =>
            obtain ⟨h1, h2⟩ := Bool.and_eq_true .. ▸ hcond
            exact Or.inr ⟨by simpa using h1, h2, by simpa using h⟩
          · simp at h
  · intro l hl
    unfold formatProfileInfoLines at hl
    rcases List.mem_append.mp hl with hl | haws
    rcases List.mem_append.mp hl with hl | hind
    rcases List.mem_append.mp hl with hl | hact
    rcases List.mem_append.mp hl with hl | hexp
    rcases List.mem_append.mp hl with hl | habout
    · rcases List.mem_cons.mp hl with h | h
      · exact Or.inl h
      · exact Or.inr (Or.inl (by simpa using h))
    · split at habout
      · next hcond =>
        obtain ⟨a, ha, hane⟩ := (truthyOpt_iff p.about).mp hcond
        refine Or.inr (Or.inr (Or.inl ⟨a, ha, hane, ?_⟩))
        have : l = "About: " ++ pyTake 300 (p.about.getD "") := by simpa using habout
        rwa [ha] at this
      · simp at habout
    · split at hexp
      · next hcond =>
        have hne : p.experiences ≠ [] := by
          simpa [List.isEmpty_iff] using hcond
        rcases List.mem_cons.mp hexp with h | h
        · exact Or.inr (Or.inr (Or.inr (Or.inl ⟨hne, Or.inl h⟩)))
        · obtain ⟨e, he, h1, h2, heq⟩ := mem_expLines (p.experiences.take 2) h
          exact Or.inr (Or.inr (Or.inr (Or.inl ⟨hne,
            Or.inr ⟨e, List.take_subset 2 p.experiences he, h1, h2, heq⟩⟩)))
      · simp at hexp
    · split at hact
      · next hcond =>
        obtain ⟨a, ha, hane⟩ := (truthyOpt_iff p.recent_activity).mp hcond
        refine Or.inr (Or.inr (Or.inr (Or.inr (Or.inl ⟨a, ha, hane, ?_⟩))))
        have : l = "Recent Post: " ++ pyTake 200 (p.recent_activity.getD "") := by
          simpa using hact
        rwa [ha] at this
      · simp at hact
    · split at hind
      · next hcond =>
        exact Or.inr (Or.inr (Or.inr (Or.inr (Or.inr (Or.inl ⟨hcond, by simpa using hind⟩)))))
      · simp at hind
    · split at haws
      · next hcond =>
        obtain ⟨h1, h2⟩ := Bool.and_eq_true .. ▸ hcond
        exact Or.inr (Or.inr (Or.inr (Or.inr (Or.inr (Or.inr
          ⟨by simpa using h1, h2, by simpa using haws⟩)))))
      · simp at haws

/-! ## Parsing a generated email into subject and body (C4)

`send_ai_email` (send_single_email.py lines 113-121) and the identical
parsing in `send_ai_batch` of the gmail send script: first line with the
literal `"Subject: "` removed, then a `while` loop skipping blank lines
after the first line, then the remainder re-joined. -/

/-- The `while body_start < len(lines) and not lines[body_start].strip()`
loop: skip the leading run of blank lines. -/
def skipBlanks : List String → List String
  | [] => []
  | l :: ls => if pyStrip l = "" then skipBlanks ls else l :: ls

/-- The parsing step of `send_ai_email` / `send_ai_batch`: subject from
`lines[0].replace("Subject: ", "")`, body from
`'\n'.join(lines[body_start:])`. -/
def parseEmail (s : String) : String × String :=
  (pyReplace "Subject: " "" ((pyLinesOf s).headD ""),
   pyJoinS "\n" (skipBlanks ((pyLinesOf s).drop 1)))

/-- The C4 claim's body, from the claim's own words: "the body consists of
all remaining non-blank lines of the text". -/
def claimBodyOf (s : String) : String :=
  pyJoinS "\n" (((pyLinesOf s).drop 1).filter (fun l => pyStrip l ≠ ""))

theorem skipBlanks_eq_dropWhile (ls : List String) :
    skipBlanks ls = ls.dropWhile (fun l => pyStrip l == "") := by
  induction ls with
  | nil => rfl
  | cons l ls ih =>
    simp only [skipBlanks, List.dropWhile_cons]
    by_cases h : pyStrip l = ""
    · rw [if_pos h, if_pos (by simp [h]), ih]
    · rw [if_neg h, if_neg (by simp [h])]

/-- C4 counterexample: for the text `"Subject: A\nB\n \nC"` the code keeps
the interior blank line in the body (`"B\n \nC"`), while the claim's "all
remaining non-blank lines" body would be `"B\nC"`. -/
theorem c4_counterexample :
    parseEmail "Subject: A\nB\n \nC" = ("A", "B\n \nC") ∧
    claimBodyOf "Subject: A\nB\n \nC" = "B\nC" ∧
    ("B\n \nC" : String) ≠ "B\nC" := by
  refine ⟨by decide, by decide, by decide⟩

/-- C4 amended: the subject is the first line with every occurrence of the
literal `"Subject: "` removed, and the body is all lines after the first
with only the leading run of blank lines skipped - interior blank lines
are preserved verbatim. -/
theorem c4_amended (s : String) :
    parseEmail s =
      (pyReplace "Subject: " "" ((pyLinesOf s).headD ""),
       pyJoinS "\n" (((pyLinesOf s).drop 1).dropWhile (fun l => pyStrip l == ""))) := by
  unfold parseEmail
  rw [skipBlanks_eq_dropWhile]

/-! ## Fallback Email Generator, ai_email_generator variant (C5, C6)

`AIEmailGenerator.generate_fallback_email` (ai_email_generator.py lines
338-392).  Sender identity comes from environment variables with hardcoded
defaults; the resolved values form a `SenderCfg`. -/

/-- Sender identity resolved from the environment (with the scripts'
hardcoded defaults). -/
structure SenderCfg where
  senderName : String
  senderTitle : String
  senderLinkedin : String
  senderPhone : String
  senderCompany : String
  senderCompanyUrl : String
deriving DecidableEq

/-- The extraction loop of lines 342-355: scans every line of the profile
info; a `Role:` line sets role (and company, splitting at the first
`" at "`), a `Post 1:` line sets the teaser (stripped, first 100
characters); the last matching line wins.  State is (role, company,
recent_post). -/
def roleCompanyPost (lines : List String) : String × String × String :=
  lines.foldl
    (fun st line =>
      if pyStarts "Role:" line then
        let role_info := pyStrip (pyReplace "Role:" "" line)
        if sContainsB " at " role_info then
          match splitFirstL " at ".data role_info.data with
          | some (a, b) => (⟨a⟩, ⟨b⟩, st.2.2)
          | none => (role_info, st.2.1, st.2.2)
        else (role_info, st.2.1, st.2.2)
      else if pyStarts "Post 1:" line then
        (st.1, st.2.1, pyTake 100 (pyStrip (pyReplace "Post 1:" "" line)))
      else st)
    ("", "", "")

/-- `generate_fallback_email` (lines 338-392): the f-string template with
role/company/teaser substitution.  `apos` splices the apostrophes the
source template contains. -/
def generateFallbackEmail (cfg : SenderCfg) (profile_info first_name : String) : String :=
  let rcp := roleCompanyPost (pyLinesOf profile_info)
  let post_reference :=
    if rcp.2.2 ≠ "" then
      "<p>I saw your recent LinkedIn post about " ++ pyTake 50 rcp.2.2 ++
      "... and it really resonated with me.</p>"
    else ""
  "Subject: " ++ "Your recent LinkedIn post caught my attention" ++
  "\n\n<p>Hi " ++ first_name ++ ",</p>\n\n" ++ post_reference ++
  "\n\n<p>Your role as " ++ rcp.1 ++ " at " ++ rcp.2.1 ++
  " caught my attention, especially given your insights on LinkedIn.</p>\n\n<p>At " ++
  cfg.senderCompany ++
  ", we help companies optimize their AWS infrastructure and would love to discuss how we might support " ++
  rcp.2.1 ++ apos ++ "s growth.</p>\n\n<p>Would you have 15 minutes for a quick call?</p>\n\n<p>Thanks,</p>\n\n<p>" ++
  cfg.senderName ++ "<br>\n" ++ cfg.senderTitle ++ "<br>\n" ++ cfg.senderCompany ++
  ": <a href=\"" ++ cfg.senderCompanyUrl ++ "\">" ++ cfg.senderCompanyUrl ++
  "</a><br>\nLinkedIn Profile: <a href=\"" ++ cfg.senderLinkedin ++ "\">" ++
  cfg.senderLinkedin ++ "</a><br>\n" ++ cfg.senderPhone ++
  "<br>\n101 Montgomery Street<br>\nSan Francisco, CA 94104</p>"

/-- C5 confirmed: for every sender configuration, profile-info string
(including `""` and all-empty profiles, whose role and company extract as
empty strings spliced into the template) and first name, the fallback
generator totally (never raising) returns a non-empty text that starts
with a `"Subject: "` line and contains well-formed opening and closing
HTML paragraph tags. -/
theorem c5_confirmed (cfg : SenderCfg) (profile_info first_name : String) :
    generateFallbackEmail cfg profile_info first_name ≠ "" ∧
    pyStarts "Subject: " (generateFallbackEmail cfg profile_info first_name) = true ∧
    sContainsB "<p>" (generateFallbackEmail cfg profile_info first_name) = true ∧
    sContainsB "</p>" (generateFallbackEmail cfg profile_info first_name) = true := by
  have h1 : pyStarts "Subject: " (generateFallbackEmail cfg profile_info first_name) = true := by
    unfold generateFallbackEmail pyStarts
    simp only [String.data_append, List.append_assoc]
    exact isPrefixOf_append_self _ _
  have h2 : sContainsB "<p>" (generateFallbackEmail cfg profile_info first_name) = true := by
    unfold generateFallbackEmail sContainsB
    simp only [String.data_append, List.append_assoc]
    apply containsSeq_append_right
    apply containsSeq_append_right
    apply containsSeq_append_left
    decide
  have h3 : sContainsB "</p>" (generateFallbackEmail cfg profile_info first_name) = true := by
    unfold generateFallbackEmail sContainsB
    simp only [String.data_append, List.append_assoc]
    apply containsSeq_append_right
    apply containsSeq_append_right
    apply containsSeq_append_right
    apply containsSeq_append_right
    apply containsSeq_append_left
    decide
  refine ⟨?_, h1, h2, h3⟩
  intro hc
  rw [hc] at h1
  exact absurd h1 (by decide)

/-! ## Fallback Email Generator, ai_gmail_outbound variant (C6, C7)

`AIEmailGenerator.generate_fallback_email` of ai_gmail_outbound.py (lines
201-267).  This variant picks its subject with `random.choice`; the RNG
draw is passed in as an explicit `rand` argument and the chosen index is
`rand % 3`. -/

/-- The role/company extraction loop of ai_gmail_outbound.py lines
216-222 (no post teaser in this variant). -/
def gmailRoleCompany (lines : List String) : String × String :=
  lines.foldl
    (fun st line =>
      if pyStarts "Role:" line then
        let role_info := pyStrip (pyReplace "Role:" "" line)
        if sContainsB " at " role_info then
          match splitFirstL " at ".data role_info.data with
          | some (a, b) => (⟨a⟩, ⟨b⟩)
          | none => (role_info, st.2)
        else (role_info, st.2)
      else st)
    ("", "")

/-- `random.choice(subject_options)` (lines 224-230), with the RNG draw
explicit: the three options in source order, selected by `rand % 3`. -/
def gmailFallbackSubject (profile_info first_name : String) (rand : Nat) : String :=
  match rand % 3 with
  | 0 => "AWS optimization opportunity for " ++ first_name
  | 1 => "Exploring AWS optimization with " ++ (gmailRoleCompany (pyLinesOf profile_info)).2
  | _ => "Quick AWS discussion for " ++ first_name

/-- The HTML body of the gmail-variant fallback template after its first
line (lines 234-265); `\x7b`/`\x7d` are the literal CSS braces and `apos`
the apostrophes of the source text. -/
def gmailFallbackBodyRest (cfg : SenderCfg) (profile_info first_name : String) : String :=
  "<html>\n<head>\n    <style>\n        body \x7b font-family: Arial, sans-serif; font-size: 14px; line-height: 1.6; color: #333; max-width: 600px; \x7d\n        p \x7b margin-bottom: 16px; \x7d\n        .signature \x7b margin-top: 20px; border-top: 1px solid #ddd; padding-top: 15px; \x7d\n        a \x7b color: #1a73e8; text-decoration: none; \x7d\n        a:hover \x7b text-decoration: underline; \x7d\n    </style>\n</head>\n<body>\n    <p>Hi " ++
  first_name ++ ",</p>\n    \n    <p>I noticed your role as " ++
  (gmailRoleCompany (pyLinesOf profile_info)).1 ++ " at " ++
  (gmailRoleCompany (pyLinesOf profile_info)).2 ++
  " and thought you might be interested in how we" ++ apos ++
  "re helping similar companies optimize their AWS infrastructure.</p>\n    \n    <p>At " ++
  cfg.senderCompany ++ ", we" ++ apos ++
  "ve helped companies reduce cloud costs by 30-40% while improving performance and reliability. Our clients typically see immediate improvements in both cost efficiency and system performance.</p>\n    \n    <p>Would you have 15 minutes for a quick call to discuss your current setup and explore potential optimizations?</p>\n    \n    <div class=\"signature\">\n        <p>Thanks,</p>\n        <p><strong>" ++
  cfg.senderName ++ "</strong><br>\n        " ++ cfg.senderTitle ++ "<br>\n        <strong>" ++
  cfg.senderCompany ++ ":</strong> <a href=\"" ++ cfg.senderCompanyUrl ++ "\">" ++
  cfg.senderCompanyUrl ++ "</a><br>\n        <strong>LinkedIn:</strong> <a href=\"" ++
  cfg.senderLinkedin ++ "\">" ++ cfg.senderLinkedin ++ "</a><br>\n        <a href=\"tel:" ++
  pyReplace "-" "" (pyReplace " " "" (pyReplace ")" "" (pyReplace "(" "" cfg.senderPhone))) ++
  "\">" ++ cfg.senderPhone ++
  "</a><br>\n        101 Montgomery Street<br>\n        San Francisco, CA 94104</p>\n    </div>\n</body>\n</html>"

/-- The HTML body of the gmail-variant fallback template (lines 234-265):
the `<!DOCTYPE html>` first line followed by the rest.  The body does not
depend on the RNG draw. -/
def gmailFallbackBody (cfg : SenderCfg) (profile_info first_name : String) : String :=
  "<!DOCTYPE html>" ++ "\n" ++ gmailFallbackBodyRest cfg profile_info first_name

/-- The gmail-variant `generate_fallback_email`: the source f-string is
`"Subject: {subject}\n\n" + body`, written here through its subject and
body constituents. -/
def gmailFallbackEmail (cfg : SenderCfg) (profile_info first_name : String) (rand : Nat) : String :=
  "Subject: " ++ gmailFallbackSubject profile_info first_name rand ++ "\n\n" ++
  gmailFallbackBody cfg profile_info first_name

/-- One run of the ai_email_generator fallback, with the RNG draw made
explicit: that variant never consults the RNG. -/
def runFallbackA (rand : Nat) (cfg : SenderCfg) (profile_info first_name : String) : String :=
  generateFallbackEmail cfg profile_info first_name

/-- C6 counterexample: the ai_gmail_outbound fallback generator, one of the
two fallback generators the claim covers, consults the RNG for its subject
line: two runs with identical profile info, first name and configuration
but different draws produce different email texts. -/
theorem c6_counterexample :
    gmailFallbackEmail ⟨"N", "T", "L", "P", "C", "U"⟩ "" "Al" 0 ≠
    gmailFallbackEmail ⟨"N", "T", "L", "P", "C", "U"⟩ "" "Al" 1 := by
  decide

/-- C6 amended: the ai_email_generator fallback is deterministic (it never
consults the RNG, so any two runs coincide for fixed inputs and
configuration); the ai_gmail_outbound fallback draws its subject at random
from three options, so only runs whose draws select the same option are
guaranteed to coincide. -/
theorem c6_amended :
    (∀ (r1 r2 : Nat) (cfg : SenderCfg) (profile_info first_name : String),
      runFallbackA r1 cfg profile_info first_name = runFallbackA r2 cfg profile_info first_name) ∧
    (∀ (cfg : SenderCfg) (profile_info first_name : String) (r1 r2 : Nat),
      r1 % 3 = r2 % 3 →
      gmailFallbackEmail cfg profile_info first_name r1 =
        gmailFallbackEmail cfg profile_info first_name r2) := by
  constructor
  · intro r1 r2 cfg profile_info first_name
    rfl
  · intro cfg profile_info first_name r1 r2 h
    unfold gmailFallbackEmail gmailFallbackSubject
    rw [h]

/-- Witness for `c6_amended` at concrete inputs. -/
theorem c6_amended_witness :
    runFallbackA 0 ⟨"N", "T", "L", "P", "C", "U"⟩ "" "Bo" =
      runFallbackA 7 ⟨"N", "T", "L", "P", "C", "U"⟩ "" "Bo" ∧
    gmailFallbackEmail ⟨"N", "T", "L", "P", "C", "U"⟩ "" "Bo" 2 =
      gmailFallbackEmail ⟨"N", "T", "L", "P", "C", "U"⟩ "" "Bo" 5 :=
  ⟨c6_amended.1 0 7 ⟨"N", "T", "L", "P", "C", "U"⟩ "" "Bo",
   c6_amended.2 ⟨"N", "T", "L", "P", "C", "U"⟩ "" "Bo" 2 5 (by decide)⟩

theorem mk_data_append (a b : String) : (⟨a.data ++ b.data⟩ : String) = a ++ b := by
  cases a; cases b; rfl

/-- The first component of the parse, for a text whose first line (up to
the first newline) is `pre1`. -/
theorem parseEmail_first (e pre1 : String) (restd : List Char)
    (hpre : ∀ x ∈ pre1.data, x ≠ '\n')
    (he : e.data = pre1.data ++ '\n' :: restd) :
    (parseEmail e).1 = pyReplace "Subject: " "" pre1 := by
  unfold parseEmail pyLinesOf
  obtain ⟨hd, tl, h1, h2⟩ := splitChL_append_no_sep '\n' pre1.data ('\n' :: restd) hpre
  rw [splitChL_cons_sep] at h1
  obtain ⟨rfl, rfl⟩ : hd = [] ∧ tl = splitChL '\n' restd := by
    injection h1 with ha hb
    exact ⟨ha.symm, hb.symm⟩
  rw [he, h2]
  simp only [List.append_nil, List.map_cons, List.headD_cons]

/-- C7 counterexample: a generation run over a CSV row whose First Name
contains a newline (legal in quoted CSV) stores a fallback email whose
chosen subject line spans two lines; the send-only driver's parse then
recovers a truncated subject, so the stored email does not round-trip to
the subject/body the generation run produced. -/
theorem c7_counterexample :
    parseEmail (gmailFallbackEmail ⟨"N", "T", "L", "P", "C", "U"⟩ "" "Ann\nBob" 0) ≠
      (gmailFallbackSubject "" "Ann\nBob" 0,
       gmailFallbackBody ⟨"N", "T", "L", "P", "C", "U"⟩ "" "Ann\nBob") := by
  intro h
  have h1 := congrArg Prod.fst h
  have hkey : ∀ t : List Char,
      ("Subject: " : String).data ++
        (("AWS optimization opportunity for Ann\nBob" : String).data ++
          (("\n\n" : String).data ++ t))
        = ("Subject: AWS optimization opportunity for Ann" : String).data ++
          ('\n' :: (("Bob\n\n" : String).data ++ t)) := by
    intro t
    rw [show ("\n\n" : String).data = ['\n', '\n'] from rfl]
    rw [show ('\n' :: (("Bob\n\n" : String).data ++ t))
        = ['\n'] ++ (("Bob\n\n" : String).data ++ t) from rfl]
    simp only [← List.append_assoc]
    congr 1
  have he : (gmailFallbackEmail ⟨"N", "T", "L", "P", "C", "U"⟩ "" "Ann\nBob" 0).data
      = ("Subject: AWS optimization opportunity for Ann" : String).data ++
        '\n' :: (("Bob\n\n" : String).data ++
          (gmailFallbackBody ⟨"N", "T", "L", "P", "C", "U"⟩ "" "Ann\nBob").data) := by
    unfold gmailFallbackEmail
    rw [show gmailFallbackSubject "" "Ann\nBob" 0
        = "AWS optimization opportunity for Ann\nBob" from by decide]
    simp only [String.data_append, List.append_assoc]
    exact hkey _
  have hfirst := parseEmail_first _ "Subject: AWS optimization opportunity for Ann" _
    (by decide) he
  rw [hfirst] at h1
  exact absurd h1 (by decide)

theorem map_data_map_mk (ls : List (List Char)) :
    (ls.map String.mk).map String.data = ls := by
  induction ls with
  | nil => rfl
  | cons l ls ih => simp only [List.map_cons, ih]

/-- The parse inverts the `"Subject: " + subject + blank line + body`
assembly whenever the subject line contains no newline and no embedded
`"Subject: "` marker, and the body's first line is not blank. -/
theorem parseEmail_of_shape (S B : String)
    (hnl : noNL S)
    (hns : sContainsB "Subject: " S = false)
    (hB : ∃ bhd btl, splitChL '\n' B.data = bhd :: btl ∧ pyStrip ⟨bhd⟩ ≠ "") :
    parseEmail ("Subject: " ++ S ++ "\n\n" ++ B) = (S, B) := by
  obtain ⟨bhd, btl, hbsplit, hbne⟩ := hB
  have hpre : ∀ x ∈ ("Subject: " ++ S).data, x ≠ '\n' := by
    intro x hx
    rw [String.data_append] at hx
    rcases List.mem_append.mp hx with hx | hx
    · intro he; subst he; revert hx; decide
    · intro he; subst he; exact hnl hx
  have hedata : ("Subject: " ++ S ++ "\n\n" ++ B).data
      = ("Subject: " ++ S).data ++ ('\n' :: '\n' :: B.data) := by
    simp only [String.data_append, List.append_assoc]
    simp
  obtain ⟨hd, tl, h1, h2⟩ :=
    splitChL_append_no_sep '\n' (("Subject: " ++ S).data) ('\n' :: '\n' :: B.data) hpre
  rw [splitChL_cons_sep, splitChL_cons_sep] at h1
  obtain ⟨rfl, rfl⟩ : hd = [] ∧ tl = [] :: splitChL '\n' B.data := by
    injection h1 with ha hb
    exact ⟨ha.symm, hb.symm⟩
  unfold parseEmail pyLinesOf
  rw [hedata, h2]
  simp only [List.append_nil, List.map_cons, List.headD_cons, List.drop_succ_cons,
    List.drop_zero]
  have hsubj : pyReplace "Subject: " "" ⟨("Subject: " ++ S).data⟩ = S := by
    rw [show (⟨("Subject: " ++ S).data⟩ : String) = "Subject: " ++ S from rfl]
    exact pyReplace_marker_of_not_contains "Subject: " S (by decide) hns
  rw [hsubj]
  have hmsg : pyJoinS "\n" (skipBlanks ((⟨[]⟩ : String) :: (splitChL '\n' B.data).map String.mk))
      = B := by
    rw [show skipBlanks ((⟨[]⟩ : String) :: (splitChL '\n' B.data).map String.mk)
        = skipBlanks ((splitChL '\n' B.data).map String.mk) from by
      simp only [skipBlanks]
      rw [if_pos (show pyStrip ⟨[]⟩ = "" from rfl)]]
    rw [hbsplit]
    simp only [List.map_cons, skipBlanks]
    rw [if_neg hbne]
    rw [← List.map_cons String.mk bhd btl, ← hbsplit]
    unfold pyJoinS
    rw [map_data_map_mk]
    rw [show ("\n" : String).data = ['\n'] from rfl]
    rw [pyJoinL_splitChL]
  rw [hmsg]

set_option maxHeartbeats 1600000 in
/-- C7 amended: re-reading and parsing a stored fallback email recovers
the generated subject and body exactly, provided the chosen subject line
contains no newline and no embedded `"Subject: "` marker (both can be
violated through CSV-supplied names, as the counterexample shows). -/
theorem c7_amended (cfg : SenderCfg) (profile_info first_name : String) (rand : Nat)
    (hnl : noNL (gmailFallbackSubject profile_info first_name rand))
    (hns : sContainsB "Subject: " (gmailFallbackSubject profile_info first_name rand) = false) :
    parseEmail (gmailFallbackEmail cfg profile_info first_name rand) =
      (gmailFallbackSubject profile_info first_name rand,
       gmailFallbackBody cfg profile_info first_name) := by
  have hBdEx : ∃ Rd : List Char,
      (gmailFallbackBody cfg profile_info first_name).data
        = ("<!DOCTYPE html>" : String).data ++ ('\n' :: Rd) :=
    ⟨(gmailFallbackBodyRest cfg profile_info first_name).data, by
      unfold gmailFallbackBody
      simp only [String.data_append, List.append_assoc]
      simp⟩
  obtain ⟨Rd, hBd⟩ := hBdEx
  have hsplit : ∃ bhd btl,
      splitChL '\n' (gmailFallbackBody cfg profile_info first_name).data = bhd :: btl ∧
        pyStrip ⟨bhd⟩ ≠ "" := by
    obtain ⟨hd, tl, h1, h2⟩ :=
      splitChL_append_no_sep '\n' ("<!DOCTYPE html>" : String).data ('\n' :: Rd) (by decide)
    rw [splitChL_cons_sep] at h1
    obtain ⟨rfl, rfl⟩ : hd = [] ∧ tl = splitChL '\n' Rd := by
      injection h1 with ha hb
      exact ⟨ha.symm, hb.symm⟩
    refine ⟨("<!DOCTYPE html>" : String).data, splitChL '\n' Rd, ?_, ?_⟩
    · rw [hBd, h2]
      simp
    · rw [show (⟨("<!DOCTYPE html>" : String).data⟩ : String) = "<!DOCTYPE html>" from rfl]
      decide
  show parseEmail ("Subject: " ++ gmailFallbackSubject profile_info first_name rand ++ "\n\n" ++
      gmailFallbackBody cfg profile_info first_name) = _
  exact parseEmail_of_shape _ _ hnl hns hsplit

/-- Witness for `c7_amended` at a concrete configuration, profile and
name. -/
theorem c7_amended_witness :
    parseEmail (gmailFallbackEmail ⟨"N", "T", "L", "P", "C", "U"⟩ "" "Al" 0) =
      (gmailFallbackSubject "" "Al" 0,
       gmailFallbackBody ⟨"N", "T", "L", "P", "C", "U"⟩ "" "Al") :=
  c7_amended ⟨"N", "T", "L", "P", "C", "U"⟩ "" "Al" 0 (by decide) (by decide)

/-! ## Batch driver of the gmail generation run (C9)

`generate_ai_gmail_outbound` (ai_gmail_outbound.py lines 269-407): rows
with a non-empty LinkedIn URL and email pass the validity filter; each
selected row is processed inside a per-contact `try` whose `except`
prints and `continue`s, appending nothing.  The cache file, the
`linkedin_scraper.Person` scrape and the Bedrock call are oracles; the
random subsample is modelled as the given row list. -/

/-- One entry of the JSON report (`contact_result`, lines 370-381);
`row_number` is presentational and elided. -/
structure ReportEntry where
  name : String
  email : String
  company : String
  title : String
  profile_info : String
  ai_email : String
deriving DecidableEq

/-- The validity filter of lines 295-297. -/
def validRow (row : CsvRow) : Bool :=
  pyStrip row.linkedinUrl ≠ "" && pyStrip row.email ≠ ""

/-- Processing of one selected row (lines 302-388).  The first step builds
the cache-file name from `linkedin_url.split('/')[-2]`, which raises
`IndexError` when the split has fewer than two parts; the enclosing
`except` then drops the contact.  `cache` is the cached profile if the
cache file exists, `scrape` the outcome of the live `Person` scrape, `ai`
the Bedrock generation outcome (`none` routes to the fallback generator
with RNG draw `rand`). -/
def processRow (cfg : SenderCfg) (cache : Option PersonData)
    (scrape : Except String PersonData) (ai : Option String) (rand : Nat)
    (row : CsvRow) : Option ReportEntry :=
  let linkedin_url := pyStrip row.linkedinUrl
  let parts := (splitChL '/' linkedin_url.data).map String.mk
  if parts.length < 2 then none
  else
    match (match cache with
           | some pd => some pd
           | none => match scrape with | .ok pd => some pd | .error _ => none) with
    | none => none
    | some pd =>
      let profile_info := formatProfileInfo pd row
      let email_text :=
        match ai with
        | some t => t
        | none => gmailFallbackEmail cfg profile_info row.firstName rand
      some { name := pyStrip (row.firstName ++ " " ++ row.lastName)
             email := row.email
             company := row.company
             title := row.title
             profile_info := profile_info
             ai_email := email_text }

/-- The batch loop: filter valid rows, process each selected row, collect
the successful results in order. -/
def generateReport (cfg : SenderCfg)
    (oracle : CsvRow → Option PersonData × Except String PersonData × Option String × Nat)
    (rows : List CsvRow) : List ReportEntry :=
  (rows.filter validRow).filterMap
    (fun row => processRow cfg (oracle row).1 (oracle row).2.1 (oracle row).2.2.1
      (oracle row).2.2.2 row)

/-- C9 counterexample: a contact row with a non-empty email and the
invalid LinkedIn URL `"invalid"` passes the validity filter, but the
cache-key step `linkedin_url.split('/')[-2]` raises `IndexError` (one
part only), the per-contact `except` fires, and the batch report is empty:
the contact is dropped, not given a fallback entry. -/
theorem c9_counterexample :
    validRow ⟨"Ann", "Lee", "ann@b.co", "Acme", "CTO", "", "", "invalid"⟩ = true ∧
    (⟨"Ann", "Lee", "ann@b.co", "Acme", "CTO", "", "", "invalid"⟩ : CsvRow).email ≠ "" ∧
    generateReport ⟨"N", "T", "L", "P", "C", "U"⟩
      (fun _ => (none, .error "scrape failed", none, 0))
      [⟨"Ann", "Lee", "ann@b.co", "Acme", "CTO", "", "", "invalid"⟩] = [] := by
  refine ⟨by decide, by decide, by decide⟩

/-- C9 amended: a selected contact row yields a report entry exactly when
its stripped LinkedIn URL splits into at least two `/`-separated parts
(so the cache-key derivation does not raise) and a profile is available
from the cache or the live scrape; a failed AI generation never drops the
contact (the fallback email is used), but a scrape failure or an invalid
URL does. -/
theorem c9_amended (cfg : SenderCfg) (cache : Option PersonData)
    (scrape : Except String PersonData) (ai : Option String) (rand : Nat) (row : CsvRow) :
    (processRow cfg cache scrape ai rand row).isSome = true ↔
      (2 ≤ ((splitChL '/' (pyStrip row.linkedinUrl).data).map String.mk).length ∧
        (cache ≠ none ∨ ∃ pd, scrape = .ok pd)) := by
  unfold processRow
  by_cases hlen : ((splitChL '/' (pyStrip row.linkedinUrl).data).map String.mk).length < 2
  · rw [if_pos hlen]
    simp only [Option.isSome_none]
    constructor
    · intro h; cases h
    · rintro ⟨h, -⟩; omega
  · rw [if_neg hlen]
    cases cache with
    | some pd =>
      constructor
      · intro _
        exact ⟨by omega, Or.inl (by simp)⟩
      · intro _
        rfl
    | none =>
      cases scrape with
      | ok pd =>
        simp only [Option.isSome_some, true_iff]
        exact ⟨by omega, Or.inr ⟨pd, rfl⟩⟩
      | error e =>
        simp only [Option.isSome_none]
        constructor
        · intro h; cases h
        · rintro ⟨-, h | ⟨pd, h⟩⟩
          · exact absurd rfl h
          · cases h
